import Mathlib

/- Verification development for a YouTube transcript-to-notes script
(`ytsum.py`).  Strings are modelled as `List Char`; the two external
collaborators (the caption-retrieval service and the generative-language
service) and the filesystem are modelled as explicit environment fields
returning `Except Unit _` (an `Except.error` models a raised exception at
the call site).  All definitions are translated from the source. -/

namespace YTSum

/-- Python strings are modelled as lists of characters. -/
abbrev Str := List Char

/- ------------------------------------------------------------------
   URL parser: `extract_video_id` (ytsum.py lines 17-29).
   The two regexes are embedded directly:
     pattern 1: (?:youtube\.com\/watch\?v=|youtu\.be\/|youtube\.com\/embed\/)([a-zA-Z0-9_-]{11})
     pattern 2: youtube\.com\/watch\?.*?&v=([a-zA-Z0-9_-]{11})
   `re.search` semantics: leftmost starting position wins; at a position,
   alternatives are tried in order; `.` does not match a newline; `{11}`
   takes exactly 11 characters of the class.
   ------------------------------------------------------------------ -/

/-- The regex character class `[a-zA-Z0-9_-]` (ASCII, as in Python `re`
on a pattern without re.UNICODE-relevant classes). -/
def isIdChar (c : Char) : Bool :=
  c.isAlphanum || c == '_' || c == '-'

/-- The capture group `([a-zA-Z0-9_-]{11})`: succeeds iff the next 11
characters exist and are all id characters, returning exactly them. -/
def takeId11 (s : Str) : Option Str :=
  if (s.take 11).length == 11 && (s.take 11).all isIdChar then some (s.take 11)
  else none

/-- Literal alternative `youtube\.com\/watch\?v=` of pattern 1 (20 chars). -/
def pWatch : Str := "youtube.com/watch?v=".toList

/-- Literal alternative `youtu\.be\/` of pattern 1 (9 chars). -/
def pShort : Str := "youtu.be/".toList

/-- Literal alternative `youtube\.com\/embed\/` of pattern 1 (18 chars). -/
def pEmbed : Str := "youtube.com/embed/".toList

/-- Literal head `youtube\.com\/watch\?` of pattern 2 (18 chars). -/
def pQuery : Str := "youtube.com/watch?".toList

/-- Literal `&v=` of pattern 2 (3 chars). -/
def pAmp : Str := "&v=".toList

/-- Try pattern 1 anchored at the start of `s`: the three alternatives in
the regex's order, each followed by the 11-character capture group. -/
def matchP1At (s : Str) : Option Str :=
  if pWatch.isPrefixOf s then takeId11 (s.drop 20)
  else if pShort.isPrefixOf s then takeId11 (s.drop 9)
  else if pEmbed.isPrefixOf s then takeId11 (s.drop 18)
  else none

/-- `re.search` for pattern 1: try every start position left to right. -/
def searchP1 : Str → Option Str
  | [] => none
  | c :: rest =>
    match matchP1At (c :: rest) with
    | some r => some r
    | none => searchP1 rest

/-- The lazy `.*?&v=([a-zA-Z0-9_-]{11})` tail of pattern 2: the shortest
gap (of non-newline characters, since `.` excludes `'\n'`) after which
`&v=` and 11 id characters match. -/
def scanAmp : Str → Option Str
  | [] => none
  | c :: rest =>
    match (if pAmp.isPrefixOf (c :: rest) then takeId11 ((c :: rest).drop 3) else none) with
    | some r => some r
    | none => if c = '\n' then none else scanAmp rest

/-- Try pattern 2 anchored at the start of `s`. -/
def matchP2At (s : Str) : Option Str :=
  if pQuery.isPrefixOf s then scanAmp (s.drop 18) else none

/-- `re.search` for pattern 2. -/
def searchP2 : Str → Option Str
  | [] => none
  | c :: rest =>
    match matchP2At (c :: rest) with
    | some r => some r
    | none => searchP2 rest

/-- `extract_video_id(url)`: the patterns are tried in order over the whole
string; the first pattern that matches anywhere wins (ytsum.py 24-29). -/
def extract_video_id (url : Str) : Option Str :=
  match searchP1 url with
  | some r => some r
  | none => searchP2 url

/- ------------------------------------------------------------------
   Python string primitives used by `save_to_file`:
   `str.split(sep)`, `str.replace(old, new)`, `str.strip()`.
   They are fuel-indexed so that every definition is structurally
   recursive (the fuel is the string length, always sufficient).
   ------------------------------------------------------------------ -/

/-- `str.split` on the non-empty separator `a :: tl`, fuel-indexed:
left-to-right scan, non-overlapping occurrences. -/
def pySplitF (a : Char) (tl : Str) : Nat → Str → List Str
  | _, [] => [[]]
  | 0, s => [s]
  | n + 1, c :: rest =>
    if (a :: tl).isPrefixOf (c :: rest) then
      [] :: pySplitF a tl n (rest.drop tl.length)
    else
      match pySplitF a tl n rest with
      | [] => [[c]]
      | p :: ps => (c :: p) :: ps

/-- `s.split(a :: tl)` (Python semantics for a non-empty separator). -/
def pySplit (a : Char) (tl : Str) (s : Str) : List Str :=
  pySplitF a tl s.length s

/-- `str.replace(a :: tl, new)`, fuel-indexed: left-to-right scan,
non-overlapping occurrences, replacement text is not rescanned. -/
def pyReplaceF (a : Char) (tl new : Str) : Nat → Str → Str
  | _, [] => []
  | 0, s => s
  | n + 1, c :: rest =>
    if (a :: tl).isPrefixOf (c :: rest) then
      new ++ pyReplaceF a tl new n (rest.drop tl.length)
    else
      c :: pyReplaceF a tl new n rest

/-- `s.replace(a :: tl, new)`. -/
def pyReplace (a : Char) (tl new : Str) (s : Str) : Str :=
  pyReplaceF a tl new s.length s

/-- Python `str.strip()` whitespace (the ASCII whitespace characters;
non-ASCII whitespace is out of scope for the texts involved). -/
def isPySpace (c : Char) : Bool :=
  c == ' ' || c == '\t' || c == '\n' || c == '\r' || c == '\x0b' || c == '\x0c'

/-- `s.strip()`: remove leading and trailing whitespace. -/
def pyStrip (s : Str) : Str :=
  ((s.dropWhile isPySpace).reverse.dropWhile isPySpace).reverse

/-- Drop every whitespace character (used to state the reconstruction
property "ignoring whitespace"). -/
def filterNW (s : Str) : Str :=
  s.filter (fun c => !isPySpace c)

/-- Tail of the literal label `"NOTES:"`. -/
def tlNotes : Str := "OTES:".toList

/-- The literal label `"NOTES:"`. -/
def lblNotes : Str := 'N' :: tlNotes

/-- Tail of the literal label `"SUMMARY:"`. -/
def tlSummary : Str := "UMMARY:".toList

/-- The literal label `"SUMMARY:"`. -/
def lblSummary : Str := 'S' :: tlSummary

/- ------------------------------------------------------------------
   External collaborators (caption retrieval, generative model,
   filesystem), modelled as an environment.
   ------------------------------------------------------------------ -/

/-- A caption track as enumerated by `list_transcripts` (an external
concept: language code, generated flag, and a fetch that may raise). -/
structure Track (α : Type) where
  language_code : Str
  ( is_generated : Bool)
  fetch : Except Unit α

/-- The run environment: `fetchEn` models
`YouTubeTranscriptApi.get_transcript(video_id, languages=['en'])`,
`listTracks` models `YouTubeTranscriptApi.list_transcripts(video_id)`,
`format` models `TextFormatter().format_transcript` (a pure formatting
step), `gen` models `model.generate_content(prompt).text` (used for both
translation and notes generation), and `write` models opening a file and
writing content to it (an `Except.error` is a raised `IOError`). -/
structure Env (α : Type) where
  fetchEn : Except Unit α
  listTracks : Except Unit (List (Track α))
  format : α → Str
  gen : Str → Except Unit Str
  write : Str → Str → Except Unit Unit

/-- The language code `'en'`. -/
def enCode : Str := "en".toList

/-- The translation prompt f-string (ytsum.py 62-70). -/
def translationPrompt (lang text : Str) : Str :=
  "\n            Please translate the following transcript from ".toList ++ lang ++
  " to English. \n            Preserve the meaning and maintain natural language flow.\n            \n            Transcript:\n            ".toList ++
  text ++
  "\n            \n            Please provide only the English translation, no additional text.\n            ".toList

/-- Track selection in the fallback branch (ytsum.py 42-54): the first
manually created track by the for/else scan, otherwise the first
generated one.  (With a boolean flag the second scan succeeds exactly
when the enumeration is non-empty and all of it is generated.) -/
def selectTrack {α : Type} (tracks : List (Track α)) : Option (Track α) :=
  match tracks.find? (fun t => ! t.is_generated) with
  | some t => some t
  | none => tracks.find? (fun t => t.is_generated)

/-- Fetch the selected track, format it, and translate via Gemini when its
language code is not `'en'` (ytsum.py 45-75).  The second component counts
translation calls made (a call that raises still counts as made).  A fetch
or translation exception is caught by the outer handler, which returns the
`(None, None)` sentinel (modelled as `none`). -/
def fetchTrack {α : Type} (env : Env α) (t : Track α) : Option (Str × Str) × Nat :=
  match t.fetch with
  | .error _ => (none, 0)
  | .ok d =>
    let text := env.format d
    if t.language_code = enCode then (some (text, t.language_code), 0)
    else
      match env.gen (translationPrompt t.language_code text) with
      | .error _ => (none, 1)
      | .ok tr => (some (tr, t.language_code), 1)

/-- `get_transcript(video_id)` (ytsum.py 31-78).  Returns the Python pair
`(text_transcript, detected_language)` — `none` standing for
`(None, None)` — together with the number of translation calls made.
When the English fetch fails and no track is selected, the Python code
reaches `format_transcript` with `transcript_list` unbound; the resulting
`UnboundLocalError`/`NameError` is caught by the outer `except`, printed,
and `(None, None)` is returned, which this case models directly. -/
def get_transcript {α : Type} (env : Env α) : Option (Str × Str) × Nat :=
  match env.fetchEn with
  | .ok d => (some (env.format d, enCode), 0)
  | .error _ =>
    match env.listTracks with
    | .error _ => (none, 0)
    | .ok tracks =>
      match selectTrack tracks with
      | none => (none, 0)
      | some t => fetchTrack env t

/-- The notes-generation prompt f-string (ytsum.py 83-105). -/
def notesPrompt (transcript : Str) : Str :=
  "\n        Based on the following transcript from a YouTube video, please create comprehensive notes and a summary.\n\n        First, create detailed notes that:\n        1. Extract key concepts and main ideas\n        2. Organize information into logical sections\n        3. Include important definitions or explanations\n        4. List any significant examples or case studies mentioned\n        5. Note any actionable tips or recommendations\n\n        Then, provide a concise summary of the video.\n\n        Here's the transcript:\n\n        ".toList ++
  transcript ++
  "\n\n        Please format your response as follows:\n        NOTES:\n        [Detailed notes here]\n\n        SUMMARY:\n        [Concise summary here]\n        ".toList

/-- `generate_notes_with_gemini(transcript)` (ytsum.py 80-111): one
generation call; an exception is caught and `None` returned. -/
def generate_notes_with_gemini {α : Type} (env : Env α) (transcript : Str) : Option Str :=
  match env.gen (notesPrompt transcript) with
  | .ok s => some s
  | .error _ => none

/-- `save_to_file(content, filename)` (ytsum.py 113-140): writes the full
file, then — when splitting on "SUMMARY:" yields exactly two parts — the
notes file (part 0 with every "NOTES:" occurrence replaced by "" and then
stripped) and the summary file (part 1 stripped).  All writes happen
inside one `try`: the result is the list of successful writes in order,
plus a flag telling whether an exception was caught (and printed). -/
def save_to_file (w : Str → Str → Except Unit Unit) (content : Str) (filename : Str) :
    List (Str × Str) × Bool :=
  match w (filename ++ "_full.txt".toList) content with
  | .error _ => ([], true)
  | .ok _ =>
    match pySplit 'S' tlSummary content with
    | [p0, p1] =>
      let notes := pyStrip (pyReplace 'N' tlNotes [] p0)
      let summary := pyStrip p1
      match w (filename ++ "_notes.txt".toList) notes with
      | .error _ => ([(filename ++ "_full.txt".toList, content)], true)
      | .ok _ =>
        match w (filename ++ "_summary.txt".toList) summary with
        | .error _ =>
          ([(filename ++ "_full.txt".toList, content),
            (filename ++ "_notes.txt".toList, notes)], true)
        | .ok _ =>
          ([(filename ++ "_full.txt".toList, content),
            (filename ++ "_notes.txt".toList, notes),
            (filename ++ "_summary.txt".toList, summary)], false)
    | _ => ([(filename ++ "_full.txt".toList, content)], false)

/-- The stage at which `process_youtube_video` stops, matching its four
distinct user-facing status lines. -/
inductive Stage where
  | invalidURL
  | noTranscript
  | noNotes
  | completed
deriving DecidableEq

/-- Observable outcome of a run: final stage, successful file writes in
order, translation calls made, and notes-generation calls made. -/
structure RunResult where
  stage : Stage
  writes : List (Str × Str)
  translateCalls : Nat
  notesCalls : Nat
deriving DecidableEq

/-- `process_youtube_video(url)` (ytsum.py 142-173).  `Except.error`
means an exception escaped the function (nothing above catches it).
Note the raw-transcript write (ytsum.py 158-160) is not inside any
`try`/`except`: a write failure there propagates.  The truthiness tests
`if not video_id`, `if not transcript`, `if not notes_content` treat the
empty string like `None`. -/
def process_youtube_video {α : Type} (env : Env α) (url : Str) : Except Unit RunResult :=
  match extract_video_id url with
  | none => .ok ⟨.invalidURL, [], 0, 0⟩
  | some vid =>
    match get_transcript env with
    | (none, k) => .ok ⟨.noTranscript, [], k, 0⟩
    | (some (text, _lang), k) =>
      if text = [] then .ok ⟨.noTranscript, [], k, 0⟩
      else
        match env.write ("video_".toList ++ vid ++ "_transcript.txt".toList) text with
        | .error e => .error e
        | .ok _ =>
          match generate_notes_with_gemini env text with
          | none => .ok ⟨.noNotes, [("video_".toList ++ vid ++ "_transcript.txt".toList, text)], k, 1⟩
          | some notes =>
            if notes = [] then
              .ok ⟨.noNotes, [("video_".toList ++ vid ++ "_transcript.txt".toList, text)], k, 1⟩
            else
              .ok ⟨.completed,
                ("video_".toList ++ vid ++ "_transcript.txt".toList, text) ::
                  (save_to_file env.write notes ("video_".toList ++ vid)).1,
                k, 1⟩

/- ------------------------------------------------------------------
   Generic helper lemmas about boolean prefixes and drop.
   ------------------------------------------------------------------ -/

/-- A list is a (boolean) prefix of itself followed by anything. -/
theorem isPrefixOf_append_self (x : Str) : ∀ s : Str, x.isPrefixOf (x ++ s) = true := by
  induction x with
  | nil => intro s; simp [List.isPrefixOf]
  | cons c x' ih => intro s; simp [List.isPrefixOf, ih]

/-- Prefix tests are monotone under appending on the right. -/
theorem isPrefixOf_append_mono (p : Str) :
    ∀ u v : Str, p.isPrefixOf u = true → p.isPrefixOf (u ++ v) = true := by
  induction p with
  | nil => intro u v _; simp [List.isPrefixOf]
  | cons a p' ih =>
    intro u v h
    cases u with
    | nil => simp [List.isPrefixOf] at h
    | cons b u' =>
      simp only [List.cons_append, List.isPrefixOf, Bool.and_eq_true] at h ⊢
      exact ⟨h.1, ih u' v h.2⟩

/-- If `p` mismatches `x` within the compared zone (neither is a prefix of
the other), then `p` is not a prefix of `x ++ s` for any `s`. -/
theorem isPrefixOf_append_false : ∀ (x p : Str), x.isPrefixOf p = false →
    p.isPrefixOf x = false → ∀ s : Str, p.isPrefixOf (x ++ s) = false
  | [], p, h1, _, _ => by simp [List.isPrefixOf] at h1
  | _ :: _, [], _, h2, _ => by simp [List.isPrefixOf] at h2
  | c :: x', b :: p', h1, h2, s => by
    cases hb : (b == c) with
    | false => simp [List.isPrefixOf, hb]
    | true =>
      have hcb : (c == b) = true := by
        have := eq_of_beq hb; subst this; exact hb
      simp only [List.cons_append, List.isPrefixOf, hb, hcb, Bool.true_and] at h1 h2 ⊢
      exact isPrefixOf_append_false x' p' h1 h2 s

/-- A boolean prefix can be split off the front of the list. -/
theorem eq_append_drop_of_isPrefixOf : ∀ (p s : Str), p.isPrefixOf s = true →
    s = p ++ s.drop p.length
  | [], s, _ => by simp
  | _ :: _, [], h => by simp [List.isPrefixOf] at h
  | a :: p', b :: s', h => by
    simp only [List.isPrefixOf, Bool.and_eq_true] at h
    have hab : a = b := eq_of_beq h.1
    subst hab
    have ih := eq_append_drop_of_isPrefixOf p' s' h.2
    simp only [List.cons_append, List.length_cons, List.drop_succ_cons]
    exact congrArg (a :: ·) ih

/-- Every element of a boolean prefix is an element of the list. -/
theorem mem_of_isPrefixOf {p l : Str} (h : p.isPrefixOf l = true) : ∀ c ∈ p, c ∈ l :=
  fun _ hc => (List.isPrefixOf_iff_prefix.mp h).subset hc

/-- Dropping past an appended block. -/
theorem drop_append_add (x s : Str) (j : Nat) : (x ++ s).drop (x.length + j) = s.drop j := by
  rw [← List.drop_drop, List.drop_left]

/-- A non-empty pattern is not a prefix of a dropped-past-the-end list. -/
theorem isPrefixOf_drop_past (p s : Str) (i : Nat) (hp : p ≠ [])
    (h : s.length ≤ i) : p.isPrefixOf (s.drop i) = false := by
  rw [List.drop_eq_nil_of_le h]
  cases p with
  | nil => exact absurd rfl hp
  | cons c cs => rfl

/- ------------------------------------------------------------------
   URL-parser lemmas (claim C1).
   ------------------------------------------------------------------ -/

/-- The capture group always yields an 11-character identifier. -/
theorem takeId11_length {s r : Str} (h : takeId11 s = some r) : r.length = 11 := by
  unfold takeId11 at h
  split at h
  · next hc =>
    rw [Bool.and_eq_true] at hc
    cases h
    exact eq_of_beq hc.1
  · cases h

/-- On an 11-character identifier the capture group returns it whole. -/
theorem takeId11_exact {id : Str} (h1 : id.length = 11) (h2 : id.all isIdChar = true) :
    takeId11 id = some id := by
  have ht : id.take 11 = id := by rw [← h1]; exact List.take_length id
  unfold takeId11
  rw [ht, h1, h2]
  simp

theorem matchP1At_length {s r : Str} (h : matchP1At s = some r) : r.length = 11 := by
  unfold matchP1At at h
  split at h
  · exact takeId11_length h
  · split at h
    · exact takeId11_length h
    · split at h
      · exact takeId11_length h
      · cases h

/-- One search step of pattern 1 when the position does not match. -/
theorem searchP1_cons_none {c : Char} {s : Str} (h : matchP1At (c :: s) = none) :
    searchP1 (c :: s) = searchP1 s := by
  simp only [searchP1, h]

/-- One search step of pattern 1 when the position matches. -/
theorem searchP1_cons_some {c : Char} {s r : Str} (h : matchP1At (c :: s) = some r) :
    searchP1 (c :: s) = some r := by
  simp only [searchP1, h]

theorem searchP1_length : ∀ (s r : Str), searchP1 s = some r → r.length = 11
  | [], r, h => by simp [searchP1] at h
  | c :: rest, r, h => by
    cases hm : matchP1At (c :: rest) with
    | some x =>
      rw [searchP1_cons_some hm] at h
      cases h
      exact matchP1At_length hm
    | none =>
      rw [searchP1_cons_none hm] at h
      exact searchP1_length rest r h

/-- All three alternatives of pattern 1 start with `'y'`. -/
theorem matchP1At_cons_ne {c : Char} (s : Str) (h : c ≠ 'y') : matchP1At (c :: s) = none := by
  have hb : ('y' == c) = false := beq_eq_false_iff_ne.mpr (Ne.symm h)
  have h1 : pWatch.isPrefixOf (c :: s) = false := by
    rw [show pWatch = 'y' :: "outube.com/watch?v=".toList from by decide]
    simp [List.isPrefixOf, hb]
  have h2 : pShort.isPrefixOf (c :: s) = false := by
    rw [show pShort = 'y' :: "outu.be/".toList from by decide]
    simp [List.isPrefixOf, hb]
  have h3 : pEmbed.isPrefixOf (c :: s) = false := by
    rw [show pEmbed = 'y' :: "outube.com/embed/".toList from by decide]
    simp [List.isPrefixOf, hb]
  unfold matchP1At
  simp [h1, h2, h3]

/-- Pattern-1 search skips over any block without a `'y'`. -/
theorem searchP1_append_noY : ∀ (x s : Str), (∀ c ∈ x, c ≠ 'y') →
    searchP1 (x ++ s) = searchP1 s
  | [], _, _ => rfl
  | c :: x', s, h => by
    rw [List.cons_append,
      searchP1_cons_none (matchP1At_cons_ne _ (h c (List.mem_cons_self c x'))),
      searchP1_append_noY x' s (fun d hd => h d (List.mem_cons_of_mem c hd))]

/-- No alternative of pattern 1 can match inside pure identifier text,
since each contains a `'.'`. -/
theorem matchP1At_none_of_idchars {l : Str} (h : l.all isIdChar = true) :
    matchP1At l = none := by
  have hdot : ∀ p : Str, '.' ∈ p → p.isPrefixOf l = false := by
    intro p hp
    cases hpre : p.isPrefixOf l with
    | false => rfl
    | true =>
      have hin : '.' ∈ l := mem_of_isPrefixOf hpre '.' hp
      have := List.all_eq_true.mp h '.' hin
      exact absurd this (by decide)
  unfold matchP1At
  simp [hdot pWatch (by decide), hdot pShort (by decide), hdot pEmbed (by decide)]

theorem searchP1_none_of_idchars : ∀ {l : Str}, l.all isIdChar = true → searchP1 l = none
  | [], _ => rfl
  | c :: rest, h => by
    have h' : rest.all isIdChar = true := by
      rw [List.all_cons, Bool.and_eq_true] at h
      exact h.2
    rw [searchP1_cons_none (matchP1At_none_of_idchars h)]
    exact searchP1_none_of_idchars h'

/-- One search step of pattern 2 (its head literal also starts `'y'`). -/
theorem matchP2At_cons_ne {c : Char} (s : Str) (h : c ≠ 'y') : matchP2At (c :: s) = none := by
  have hb : ('y' == c) = false := beq_eq_false_iff_ne.mpr (Ne.symm h)
  have h1 : pQuery.isPrefixOf (c :: s) = false := by
    rw [show pQuery = 'y' :: "outube.com/watch?".toList from by decide]
    simp [List.isPrefixOf, hb]
  unfold matchP2At
  simp [h1]

theorem searchP2_cons_none {c : Char} {s : Str} (h : matchP2At (c :: s) = none) :
    searchP2 (c :: s) = searchP2 s := by
  simp only [searchP2, h]

theorem searchP2_cons_some {c : Char} {s r : Str} (h : matchP2At (c :: s) = some r) :
    searchP2 (c :: s) = some r := by
  simp only [searchP2, h]

theorem searchP2_append_noY : ∀ (x s : Str), (∀ c ∈ x, c ≠ 'y') →
    searchP2 (x ++ s) = searchP2 s
  | [], _, _ => rfl
  | c :: x', s, h => by
    rw [List.cons_append,
      searchP2_cons_none (matchP2At_cons_ne _ (h c (List.mem_cons_self c x'))),
      searchP2_append_noY x' s (fun d hd => h d (List.mem_cons_of_mem c hd))]

/-- The lazy scan skips a block containing no `'&'` and no newline. -/
theorem scanAmp_append_skip : ∀ (x s : Str), (∀ c ∈ x, c ≠ '&' ∧ c ≠ '\n') →
    scanAmp (x ++ s) = scanAmp s
  | [], _, _ => rfl
  | c :: x', s, h => by
    have hc := h c (List.mem_cons_self c x')
    have hb : ('&' == c) = false := beq_eq_false_iff_ne.mpr (Ne.symm hc.1)
    have h1 : pAmp.isPrefixOf (c :: (x' ++ s)) = false := by
      rw [show pAmp = '&' :: "v=".toList from by decide]
      simp [List.isPrefixOf, hb]
    rw [List.cons_append]
    simp only [scanAmp, h1, if_false, Bool.false_eq_true]
    rw [if_neg hc.2]
    exact scanAmp_append_skip x' s (fun d hd => h d (List.mem_cons_of_mem c hd))

theorem scanAmp_length : ∀ (s r : Str), scanAmp s = some r → r.length = 11
  | [], r, h => by simp [scanAmp] at h
  | c :: rest, r, h => by
    cases hm : (if pAmp.isPrefixOf (c :: rest) then takeId11 ((c :: rest).drop 3) else none) with
    | some x =>
      simp only [scanAmp, hm] at h
      cases h
      split at hm
      · exact takeId11_length hm
      · cases hm
    | none =>
      simp only [scanAmp, hm] at h
      split at h
      · cases h
      · exact scanAmp_length rest r h

theorem matchP2At_length {s r : Str} (h : matchP2At s = some r) : r.length = 11 := by
  unfold matchP2At at h
  split at h
  · exact scanAmp_length _ _ h
  · cases h

theorem searchP2_length : ∀ (s r : Str), searchP2 s = some r → r.length = 11
  | [], r, h => by simp [searchP2] at h
  | c :: rest, r, h => by
    cases hm : matchP2At (c :: rest) with
    | some x =>
      rw [searchP2_cons_some hm] at h
      cases h
      exact matchP2At_length hm
    | none =>
      rw [searchP2_cons_none hm] at h
      exact searchP2_length rest r h

/-- The canonical `watch?v=` URL shape. -/
def urlWatch (id : Str) : Str := "https://www.youtube.com/watch?v=".toList ++ id

/-- The canonical `youtu.be/` URL shape. -/
def urlShort (id : Str) : Str := "https://youtu.be/".toList ++ id

/-- The canonical `embed/` URL shape. -/
def urlEmbed (id : Str) : Str := "https://www.youtube.com/embed/".toList ++ id

/-- A `watch` URL whose `v=` parameter comes after another query
parameter, matched only by the second pattern family. -/
def urlAmp (id : Str) : Str := "https://www.youtube.com/watch?list=PL123&v=".toList ++ id

theorem searchP1_urlWatch {id : Str} (h1 : id.length = 11) (h2 : id.all isIdChar = true) :
    searchP1 (urlWatch id) = some id := by
  rw [urlWatch,
    show "https://www.youtube.com/watch?v=".toList = "https://www.".toList ++ pWatch from by decide,
    List.append_assoc, searchP1_append_noY _ _ (by decide)]
  have hm : matchP1At (pWatch ++ id) = some id := by
    unfold matchP1At
    rw [if_pos (isPrefixOf_append_self pWatch id)]
    have hd : (pWatch ++ id).drop 20 = id := by
      rw [show (20 : Nat) = pWatch.length from by decide]
      exact List.drop_left _ _
    rw [hd]
    exact takeId11_exact h1 h2
  rw [show pWatch ++ id = 'y' :: ("outube.com/watch?v=".toList ++ id) from by
      rw [show pWatch = 'y' :: "outube.com/watch?v=".toList from by decide, List.cons_append]] at hm ⊢
  exact searchP1_cons_some hm

theorem searchP1_urlShort {id : Str} (h1 : id.length = 11) (h2 : id.all isIdChar = true) :
    searchP1 (urlShort id) = some id := by
  rw [urlShort,
    show "https://youtu.be/".toList = "https://".toList ++ pShort from by decide,
    List.append_assoc, searchP1_append_noY _ _ (by decide)]
  have hm : matchP1At (pShort ++ id) = some id := by
    unfold matchP1At
    have hw : ¬ (pWatch.isPrefixOf (pShort ++ id) = true) := by
      rw [isPrefixOf_append_false pShort pWatch (by decide) (by decide) id]
      exact Bool.false_ne_true
    rw [if_neg hw, if_pos (isPrefixOf_append_self pShort id)]
    have hd : (pShort ++ id).drop 9 = id := by
      rw [show (9 : Nat) = pShort.length from by decide]
      exact List.drop_left _ _
    rw [hd]
    exact takeId11_exact h1 h2
  rw [show pShort ++ id = 'y' :: ("outu.be/".toList ++ id) from by
      rw [show pShort = 'y' :: "outu.be/".toList from by decide, List.cons_append]] at hm ⊢
  exact searchP1_cons_some hm

theorem searchP1_urlEmbed {id : Str} (h1 : id.length = 11) (h2 : id.all isIdChar = true) :
    searchP1 (urlEmbed id) = some id := by
  rw [urlEmbed,
    show "https://www.youtube.com/embed/".toList = "https://www.".toList ++ pEmbed from by decide,
    List.append_assoc, searchP1_append_noY _ _ (by decide)]
  have hm : matchP1At (pEmbed ++ id) = some id := by
    unfold matchP1At
    have hw : ¬ (pWatch.isPrefixOf (pEmbed ++ id) = true) := by
      rw [isPrefixOf_append_false pEmbed pWatch (by decide) (by decide) id]
      exact Bool.false_ne_true
    have hs : ¬ (pShort.isPrefixOf (pEmbed ++ id) = true) := by
      rw [isPrefixOf_append_false pEmbed pShort (by decide) (by decide) id]
      exact Bool.false_ne_true
    rw [if_neg hw, if_neg hs, if_pos (isPrefixOf_append_self pEmbed id)]
    have hd : (pEmbed ++ id).drop 18 = id := by
      rw [show (18 : Nat) = pEmbed.length from by decide]
      exact List.drop_left _ _
    rw [hd]
    exact takeId11_exact h1 h2
  rw [show pEmbed ++ id = 'y' :: ("outube.com/embed/".toList ++ id) from by
      rw [show pEmbed = 'y' :: "outube.com/embed/".toList from by decide, List.cons_append]] at hm ⊢
  exact searchP1_cons_some hm

/-- On the `&v=`-style URL the first pattern family finds nothing. -/
theorem searchP1_urlAmp {id : Str} (h2 : id.all isIdChar = true) :
    searchP1 (urlAmp id) = none := by
  rw [urlAmp,
    show "https://www.youtube.com/watch?list=PL123&v=".toList
      = "https://www.".toList ++ "youtube.com/watch?list=PL123&v=".toList from by decide,
    List.append_assoc, searchP1_append_noY _ _ (by decide)]
  have hm : matchP1At ("youtube.com/watch?list=PL123&v=".toList ++ id) = none := by
    unfold matchP1At
    have hw : ¬ (pWatch.isPrefixOf ("youtube.com/watch?list=PL123&v=".toList ++ id) = true) := by
      rw [isPrefixOf_append_false _ pWatch (by decide) (by decide) id]
      exact Bool.false_ne_true
    have hs : ¬ (pShort.isPrefixOf ("youtube.com/watch?list=PL123&v=".toList ++ id) = true) := by
      rw [isPrefixOf_append_false _ pShort (by decide) (by decide) id]
      exact Bool.false_ne_true
    have he : ¬ (pEmbed.isPrefixOf ("youtube.com/watch?list=PL123&v=".toList ++ id) = true) := by
      rw [isPrefixOf_append_false _ pEmbed (by decide) (by decide) id]
      exact Bool.false_ne_true
    rw [if_neg hw, if_neg hs, if_neg he]
  rw [show "youtube.com/watch?list=PL123&v=".toList ++ id
      = 'y' :: ("outube.com/watch?list=PL123&v=".toList ++ id) from by
      rw [show "youtube.com/watch?list=PL123&v=".toList
          = 'y' :: "outube.com/watch?list=PL123&v=".toList from by decide, List.cons_append]] at hm ⊢
  rw [searchP1_cons_none hm, searchP1_append_noY _ _ (by decide)]
  exact searchP1_none_of_idchars h2

/-- On the `&v=`-style URL the second pattern family finds the id. -/
theorem searchP2_urlAmp {id : Str} (h1 : id.length = 11) (h2 : id.all isIdChar = true) :
    searchP2 (urlAmp id) = some id := by
  rw [urlAmp,
    show "https://www.youtube.com/watch?list=PL123&v=".toList
      = "https://www.".toList ++ "youtube.com/watch?list=PL123&v=".toList from by decide,
    List.append_assoc, searchP2_append_noY _ _ (by decide)]
  have hm : matchP2At ("youtube.com/watch?list=PL123&v=".toList ++ id) = some id := by
    unfold matchP2At
    rw [show "youtube.com/watch?list=PL123&v=".toList
        = pQuery ++ "list=PL123&v=".toList from by decide, List.append_assoc,
      if_pos (isPrefixOf_append_self pQuery _)]
    have hd : (pQuery ++ ("list=PL123&v=".toList ++ id)).drop 18 = "list=PL123&v=".toList ++ id := by
      rw [show (18 : Nat) = pQuery.length from by decide]
      exact List.drop_left _ _
    rw [hd, show "list=PL123&v=".toList = "list=PL123".toList ++ pAmp from by decide,
      List.append_assoc, scanAmp_append_skip _ _ (by decide)]
    have hif : (if pAmp.isPrefixOf ('&' :: ("v=".toList ++ id))
        then takeId11 (('&' :: ("v=".toList ++ id)).drop 3) else none) = some id := by
      rw [show '&' :: ("v=".toList ++ id) = pAmp ++ id from by
        rw [show pAmp = '&' :: "v=".toList from by decide, List.cons_append]]
      rw [if_pos (isPrefixOf_append_self pAmp id)]
      have hd3 : (pAmp ++ id).drop 3 = id := by
        rw [show (3 : Nat) = pAmp.length from by decide]
        exact List.drop_left _ _
      rw [hd3]
      exact takeId11_exact h1 h2
    rw [show pAmp ++ id = '&' :: ("v=".toList ++ id) from by
      rw [show pAmp = '&' :: "v=".toList from by decide, List.cons_append]]
    simp only [scanAmp, hif]
  rw [show "youtube.com/watch?list=PL123&v=".toList ++ id
      = 'y' :: ("outube.com/watch?list=PL123&v=".toList ++ id) from by
      rw [show "youtube.com/watch?list=PL123&v=".toList
          = 'y' :: "outube.com/watch?list=PL123&v=".toList from by decide, List.cons_append]] at hm ⊢
  exact searchP2_cons_some hm

theorem extract_video_id_length {s r : Str} (h : extract_video_id s = some r) :
    r.length = 11 := by
  unfold extract_video_id at h
  cases hm : searchP1 s with
  | some x =>
    rw [hm] at h
    cases h
    exact searchP1_length _ _ hm
  | none =>
    rw [hm] at h
    exact searchP2_length _ _ h

/-- C1: `extract_video_id` is total (it returns `none` rather than
raising) and every identifier it returns has exactly 11 characters; on
each supported URL shape — `watch?v=`, `youtu.be/`, `embed/`, and a `&v=`
parameter after another query parameter — carrying an 11-character
identifier it returns that identifier; and the `watch?v=`/`youtu.be`/
`embed` pattern family is tried before the `&v=` family, the first
successful match winning. -/
theorem c1_extract_video_id :
    (∀ s r : Str, extract_video_id s = some r → r.length = 11) ∧
    (∀ id : Str, id.length = 11 → id.all isIdChar = true →
      extract_video_id (urlWatch id) = some id ∧
      extract_video_id (urlShort id) = some id ∧
      extract_video_id (urlEmbed id) = some id ∧
      extract_video_id (urlAmp id) = some id) ∧
    (∀ s r : Str, searchP1 s = some r → extract_video_id s = some r) := by
  refine ⟨fun s r h => extract_video_id_length h,
    fun id h1 h2 => ⟨?_, ?_, ?_, ?_⟩,
    fun s r h => by unfold extract_video_id; rw [h]⟩
  · unfold extract_video_id
    rw [searchP1_urlWatch h1 h2]
  · unfold extract_video_id
    rw [searchP1_urlShort h1 h2]
  · unfold extract_video_id
    rw [searchP1_urlEmbed h1 h2]
  · unfold extract_video_id
    rw [searchP1_urlAmp h2, searchP2_urlAmp h1 h2]

/-- Witness for C1 at the concrete identifier `dQw4w9WgXcQ`. -/
theorem c1_extract_video_id_w :
    extract_video_id (urlWatch "dQw4w9WgXcQ".toList) = some "dQw4w9WgXcQ".toList ∧
    extract_video_id (urlAmp "dQw4w9WgXcQ".toList) = some "dQw4w9WgXcQ".toList :=
  ⟨(c1_extract_video_id.2.1 _ (by decide) (by decide)).1,
   (c1_extract_video_id.2.1 _ (by decide) (by decide)).2.2.2⟩

/- ------------------------------------------------------------------
   Transcript acquirer (claims C2, C6, C7).
   ------------------------------------------------------------------ -/

/-- `find?` returns the first element satisfying the test, regardless of
what precedes it. -/
theorem find?_append_first {α : Type} (p : α → Bool) :
    ∀ (pre : List α) (t : α) (post : List α), (∀ u ∈ pre, p u = false) → p t = true →
      List.find? p (pre ++ t :: post) = some t
  | [], t, post, _, ht => by
    rw [List.nil_append]
    exact List.find?_cons_of_pos _ ht
  | u :: pre', t, post, h, ht => by
    rw [List.cons_append,
      List.find?_cons_of_neg _ (by simp [h u (List.mem_cons_self u pre')])]
    exact find?_append_first p pre' t post (fun v hv => h v (List.mem_cons_of_mem u hv)) ht

/-- C2: in the fallback path (English fetch failed, enumeration
succeeded), the first manually-authored track in iteration order is the
one fetched and selected even when auto-generated tracks precede it; and
a selected auto-generated track implies the enumeration had no
manually-authored track at all. -/
theorem c2_manual_track_preferred {α : Type} :
    (∀ (env : Env α) (pre : List (Track α)) (t : Track α) (post : List (Track α)),
      env.fetchEn = .error () → env.listTracks = .ok (pre ++ t :: post) →
      (∀ u ∈ pre, u.is_generated = true) → t.is_generated = false →
      get_transcript env = fetchTrack env t) ∧
    (∀ (env : Env α) (tracks : List (Track α)) (t : Track α),
      env.fetchEn = .error () → env.listTracks = .ok tracks →
      selectTrack tracks = some t → t.is_generated = true →
      ∀ u ∈ tracks, u.is_generated = true) := by
  constructor
  · intro env pre t post hEn hLs hpre ht
    have hsel : selectTrack (pre ++ t :: post) = some t := by
      unfold selectTrack
      rw [find?_append_first _ pre t post (fun u hu => by simp [hpre u hu]) (by simp [ht])]
    unfold get_transcript
    simp only [hEn, hLs, hsel]
  · intro env tracks t _ _ hsel hgen u hu
    unfold selectTrack at hsel
    cases hf : tracks.find? (fun t => ! t.is_generated) with
    | some t' =>
      rw [hf] at hsel
      cases hsel
      have := List.find?_some hf
      simp [hgen] at this
    | none =>
      have hall := List.find?_eq_none.mp hf u hu
      simpa using hall

/-- An auto-generated track in a non-English language, listed first. -/
def trackGen : Track Unit := ⟨"fr".toList, true, .ok ()⟩

/-- A manually-authored track in a non-English language, listed second. -/
def trackMan : Track Unit := ⟨"de".toList, false, .ok ()⟩

/-- Environment whose English fetch fails and whose enumeration lists the
generated track before the manual one. -/
def envC2 : Env Unit :=
  ⟨.error (), .ok [trackGen, trackMan], fun _ => "bonjour".toList,
    fun _ => .ok "hello".toList, fun _ _ => .ok ()⟩

/-- Environment with a single auto-generated track. -/
def envC2b : Env Unit :=
  ⟨.error (), .ok [trackGen], fun _ => "bonjour".toList,
    fun _ => .ok "hello".toList, fun _ _ => .ok ()⟩

/-- Witness for C2: with a generated track first, the manual track is the
one selected; with only a generated track, every enumerated track is
generated. -/
theorem c2_manual_track_preferred_w :
    get_transcript envC2 = fetchTrack envC2 trackMan ∧
    (∀ u ∈ [trackGen], u.is_generated = true) :=
  ⟨c2_manual_track_preferred.1 envC2 [trackGen] trackMan [] rfl rfl
      (fun u hu => by rw [List.mem_singleton] at hu; rw [hu]; rfl) rfl,
    c2_manual_track_preferred.2 envC2b [trackGen] trackGen rfl rfl rfl rfl⟩

/-- C6: when the English fetch fails and the enumeration selects no track
(in particular when it is empty), the acquirer returns the `(None, None)`
sentinel — in the code an `UnboundLocalError` is raised and caught by the
acquirer's own handler, so nothing propagates to the caller — with no
generative call of either kind, and the surrounding run halts at the
no-transcript stage with no file written. -/
theorem c6_no_track_selected {α : Type} (env : Env α) (tracks : List (Track α))
    (hEn : env.fetchEn = .error ()) (hLs : env.listTracks = .ok tracks)
    (hsel : selectTrack tracks = none) :
    get_transcript env = (none, 0) ∧
    ∀ url vid : Str, extract_video_id url = some vid →
      process_youtube_video env url = .ok ⟨.noTranscript, [], 0, 0⟩ := by
  have hget : get_transcript env = (none, 0) := by
    unfold get_transcript
    simp only [hEn, hLs, hsel]
  refine ⟨hget, fun url vid hurl => ?_⟩
  unfold process_youtube_video
  simp only [hurl, hget]

/-- Environment with a failing English fetch and an empty enumeration. -/
def envC6 : Env Unit :=
  ⟨.error (), .ok [], fun _ => "x".toList, fun _ => .ok "y".toList, fun _ _ => .ok ()⟩

/-- Witness for C6 on the empty enumeration. -/
theorem c6_no_track_selected_w :
    get_transcript envC6 = (none, 0) ∧
    process_youtube_video envC6 (urlWatch "dQw4w9WgXcQ".toList)
      = .ok ⟨.noTranscript, [], 0, 0⟩ :=
  ⟨(c6_no_track_selected envC6 [] rfl rfl rfl).1,
    (c6_no_track_selected envC6 [] rfl rfl rfl).2 _ "dQw4w9WgXcQ".toList (by decide)⟩

/-- C7: when the direct English fetch succeeds, the acquirer makes no
translation call and returns the formatted text with language `"en"`. -/
theorem c7_english_no_translation {α : Type} (env : Env α) (d : α)
    (h : env.fetchEn = .ok d) :
    get_transcript env = (some (env.format d, enCode), 0) := by
  unfold get_transcript
  rw [h]

/-- Environment whose English fetch succeeds. -/
def envC7 : Env Unit :=
  ⟨.ok (), .error (), fun _ => "hello world".toList, fun _ => .error (), fun _ _ => .ok ()⟩

/-- Witness for C7. -/
theorem c7_english_no_translation_w :
    get_transcript envC7 = (some ("hello world".toList, enCode), 0) :=
  c7_english_no_translation envC7 () rfl

/- ------------------------------------------------------------------
   Orchestrator (claims C9, C10, C5).
   ------------------------------------------------------------------ -/

/-- C9: the orchestrator runs parse → acquire → persist raw transcript →
generate → write outputs, halting with a distinct stage at the first
failure: unparseable URL means nothing else runs; missing transcript
means no file write and no notes-generation call; failed generation
means no output files beyond the already-written raw transcript; and on
full success all stages run. -/
theorem c9_orchestrator_sequence {α : Type} :
    (∀ (env : Env α) (url : Str), extract_video_id url = none →
      process_youtube_video env url = .ok ⟨.invalidURL, [], 0, 0⟩) ∧
    (∀ (env : Env α) (url vid : Str) (k : Nat), extract_video_id url = some vid →
      get_transcript env = (none, k) →
      process_youtube_video env url = .ok ⟨.noTranscript, [], k, 0⟩) ∧
    (∀ (env : Env α) (url vid text lang : Str) (k : Nat),
      extract_video_id url = some vid →
      get_transcript env = (some (text, lang), k) → text ≠ [] →
      env.write ("video_".toList ++ vid ++ "_transcript.txt".toList) text = .ok () →
      env.gen (notesPrompt text) = .error () →
      process_youtube_video env url
        = .ok ⟨.noNotes, [("video_".toList ++ vid ++ "_transcript.txt".toList, text)], k, 1⟩) ∧
    (∀ (env : Env α) (url vid text lang notes : Str) (k : Nat),
      extract_video_id url = some vid →
      get_transcript env = (some (text, lang), k) → text ≠ [] →
      env.write ("video_".toList ++ vid ++ "_transcript.txt".toList) text = .ok () →
      env.gen (notesPrompt text) = .ok notes → notes ≠ [] →
      process_youtube_video env url
        = .ok ⟨.completed,
            ("video_".toList ++ vid ++ "_transcript.txt".toList, text)
              :: (save_to_file env.write notes ("video_".toList ++ vid)).1, k, 1⟩) := by
  refine ⟨fun env url hurl => ?_, fun env url vid k hurl hget => ?_,
    fun env url vid text lang k hurl hget ht hw hgen => ?_,
    fun env url vid text lang notes k hurl hget ht hw hgen hn => ?_⟩
  · unfold process_youtube_video
    simp only [hurl]
  · unfold process_youtube_video
    simp only [hurl, hget]
  · unfold process_youtube_video
    unfold generate_notes_with_gemini
    simp only [hurl, hget, if_neg ht, hw, hgen]
  · unfold process_youtube_video
    unfold generate_notes_with_gemini
    simp only [hurl, hget, if_neg ht, hw, hgen, if_neg hn]

/-- Environment for a fully successful run. -/
def envOK : Env Unit :=
  ⟨.ok (), .error (), fun _ => "hola".toList,
    fun _ => .ok "NOTES: n SUMMARY: s".toList, fun _ _ => .ok ()⟩

/-- Witness for C9: the generation-failure scenario and the invalid-URL
scenario at concrete inputs. -/
theorem c9_orchestrator_sequence_w :
    process_youtube_video envC7 (urlWatch "dQw4w9WgXcQ".toList)
      = .ok ⟨.noNotes,
          [("video_".toList ++ "dQw4w9WgXcQ".toList ++ "_transcript.txt".toList,
            "hello world".toList)], 0, 1⟩ ∧
    process_youtube_video envC7 "no url here".toList = .ok ⟨.invalidURL, [], 0, 0⟩ :=
  ⟨c9_orchestrator_sequence.2.2.1 envC7 _ "dQw4w9WgXcQ".toList "hello world".toList enCode 0
      (by decide) rfl (by decide) rfl rfl,
    c9_orchestrator_sequence.1 envC7 _ (by decide)⟩

/-- C10: an empty transcript string is treated exactly like the failure
sentinel (`if not transcript`): the run halts at the no-transcript stage
with no file written and no generation call; an empty generated-notes
string likewise halts at the no-notes stage with only the raw transcript
file written (`if not notes_content`). -/
theorem c10_empty_as_failure {α : Type} :
    (∀ (env : Env α) (url vid lang : Str) (k : Nat),
      extract_video_id url = some vid →
      get_transcript env = (some ([], lang), k) →
      process_youtube_video env url = .ok ⟨.noTranscript, [], k, 0⟩) ∧
    (∀ (env : Env α) (url vid text lang : Str) (k : Nat),
      extract_video_id url = some vid →
      get_transcript env = (some (text, lang), k) → text ≠ [] →
      env.write ("video_".toList ++ vid ++ "_transcript.txt".toList) text = .ok () →
      env.gen (notesPrompt text) = .ok [] →
      process_youtube_video env url
        = .ok ⟨.noNotes, [("video_".toList ++ vid ++ "_transcript.txt".toList, text)], k, 1⟩) := by
  constructor
  · intro env url vid lang k hurl hget
    unfold process_youtube_video
    simp [hurl, hget]
  · intro env url vid text lang k hurl hget ht hw hgen
    unfold process_youtube_video
    unfold generate_notes_with_gemini
    simp only [hurl, hget, if_neg ht, hw, hgen]
    simp only [if_true]

/-- Environment returning an empty transcript text. -/
def envEmptyText : Env Unit :=
  ⟨.ok (), .error (), fun _ => [], fun _ => .ok "y".toList, fun _ _ => .ok ()⟩

/-- Environment whose generation call returns the empty string. -/
def envEmptyNotes : Env Unit :=
  ⟨.ok (), .error (), fun _ => "hola".toList, fun _ => .ok [], fun _ _ => .ok ()⟩

/-- Witness for C10 at concrete runs. -/
theorem c10_empty_as_failure_w :
    process_youtube_video envEmptyText (urlWatch "dQw4w9WgXcQ".toList)
      = .ok ⟨.noTranscript, [], 0, 0⟩ ∧
    process_youtube_video envEmptyNotes (urlWatch "dQw4w9WgXcQ".toList)
      = .ok ⟨.noNotes,
          [("video_".toList ++ "dQw4w9WgXcQ".toList ++ "_transcript.txt".toList,
            "hola".toList)], 0, 1⟩ :=
  ⟨c10_empty_as_failure.1 envEmptyText _ "dQw4w9WgXcQ".toList enCode 0 (by decide) rfl,
    c10_empty_as_failure.2 envEmptyNotes _ "dQw4w9WgXcQ".toList "hola".toList enCode 0
      (by decide) rfl (by decide) rfl rfl⟩

/-- C5 (amended): failures of the URL parse, the caption service, and the
generative service are caught at their component boundaries and turned
into sentinels, and write failures inside `save_to_file` are caught
there; but the orchestrator's own raw-transcript write is not protected,
and a write failure there propagates as an unhandled exception. -/
theorem c5_error_containment {α : Type} :
    (∀ (w : Str → Str → Except Unit Unit) (content filename : Str),
      w (filename ++ "_full.txt".toList) content = .error () →
      save_to_file w content filename = ([], true)) ∧
    (∀ env : Env α, env.fetchEn = .error () → env.listTracks = .error () →
      get_transcript env = (none, 0)) ∧
    (∀ (env : Env α) (t : Str), env.gen (notesPrompt t) = .error () →
      generate_notes_with_gemini env t = none) ∧
    (∀ (env : Env α) (url vid text lang : Str) (k : Nat),
      extract_video_id url = some vid →
      get_transcript env = (some (text, lang), k) → text ≠ [] →
      env.write ("video_".toList ++ vid ++ "_transcript.txt".toList) text = .error () →
      process_youtube_video env url = .error ()) := by
  refine ⟨fun w content filename hw => ?_, fun env h1 h2 => ?_,
    fun env t hg => ?_, fun env url vid text lang k hurl hget ht hw => ?_⟩
  · unfold save_to_file
    simp only [hw]
  · unfold get_transcript
    simp only [h1, h2]
  · unfold generate_notes_with_gemini
    simp only [hg]
  · unfold process_youtube_video
    simp only [hurl, hget, if_neg ht, hw]

/-- Environment in which every file write raises. -/
def envC5 : Env Unit :=
  ⟨.ok (), .error (), fun _ => "hi".toList, fun _ => .ok "res".toList,
    fun _ _ => .error ()⟩

/-- Witness for C5 (amended): a failing writer is contained inside
`save_to_file`, and the unprotected raw-transcript write propagates. -/
theorem c5_error_containment_w :
    save_to_file envC5.write "x".toList "f".toList = ([], true) ∧
    process_youtube_video envC5 (urlWatch "dQw4w9WgXcQ".toList) = .error () :=
  ⟨(@c5_error_containment Unit).1 envC5.write "x".toList "f".toList rfl,
    (@c5_error_containment Unit).2.2.2 envC5 _ "dQw4w9WgXcQ".toList "hi".toList enCode 0
      (by decide) rfl (by decide) rfl⟩

/-- Counterexample to C5 as stated: with a failing filesystem the
orchestrator's raw-transcript write raises and nothing catches it, so a
file-write failure does propagate as an unhandled exception. -/
theorem c5_error_containment_cex :
    process_youtube_video envC5 (urlWatch "dQw4w9WgXcQ".toList) = .error () := by
  rfl

/- ------------------------------------------------------------------
   Output writer (claims C3, C8).
   ------------------------------------------------------------------ -/

/-- A writer whose writes always succeed. -/
def okWriter : Str → Str → Except Unit Unit := fun _ _ => .ok ()

/-- C3 (amended): when the split on "SUMMARY:" yields exactly two parts,
the notes file holds part one with every occurrence of "NOTES:" removed
(not only a leading label) and surrounding whitespace stripped, and the
summary file holds part two stripped. -/
theorem c3_writer_two_parts (w : Str → Str → Except Unit Unit)
    (content filename p0 p1 : Str)
    (hw : ∀ f c, w f c = .ok ())
    (hp : pySplit 'S' tlSummary content = [p0, p1]) :
    save_to_file w content filename =
      ([(filename ++ "_full.txt".toList, content),
        (filename ++ "_notes.txt".toList, pyStrip (pyReplace 'N' tlNotes [] p0)),
        (filename ++ "_summary.txt".toList, pyStrip p1)], false) := by
  unfold save_to_file
  simp only [hw, hp]

/-- Witness for C3 (amended) at a concrete two-part document. -/
theorem c3_writer_two_parts_w :
    save_to_file okWriter "NOTES: n SUMMARY: s".toList "v".toList =
      ([("v".toList ++ "_full.txt".toList, "NOTES: n SUMMARY: s".toList),
        ("v".toList ++ "_notes.txt".toList,
          pyStrip (pyReplace 'N' tlNotes [] "NOTES: n ".toList)),
        ("v".toList ++ "_summary.txt".toList, pyStrip " s".toList)], false) :=
  c3_writer_two_parts okWriter "NOTES: n SUMMARY: s".toList "v".toList
    "NOTES: n ".toList " s".toList (fun _ _ => rfl) (by decide)

/-- Modelled from the spec's words ("the first part with only a leading
NOTES: label and surrounding whitespace stripped"): remove one leading
label, leave the interior unchanged, strip whitespace. -/
def specNotesLeadingOnly (p : Str) : Str :=
  pyStrip (if lblNotes.isPrefixOf p then p.drop 6 else p)

/-- Counterexample to C3 as stated: on a part containing an interior
"NOTES:", the code removes the interior occurrence too, so the written
notes file differs from the spec's leading-label-only description. -/
theorem c3_writer_two_parts_cex :
    ((save_to_file okWriter "NOTES: a NOTES: b SUMMARY: c".toList "v".toList).1.map
        Prod.snd).get? 1 = some "a  b".toList ∧
    specNotesLeadingOnly "NOTES: a NOTES: b ".toList = "a NOTES: b".toList ∧
    ("a  b".toList ≠ "a NOTES: b".toList) := by
  decide

/-- C8: when the split on "SUMMARY:" yields anything but two parts (zero
or two-or-more marker occurrences), only the full file is written — no
notes or summary file — and no error is reported. -/
theorem c8_no_split_only_full (w : Str → Str → Except Unit Unit)
    (content filename : Str)
    (hw : ∀ f c, w f c = .ok ())
    (hs : (pySplit 'S' tlSummary content).length ≠ 2) :
    save_to_file w content filename
      = ([(filename ++ "_full.txt".toList, content)], false) := by
  unfold save_to_file
  simp only [hw]
  cases hp : pySplit 'S' tlSummary content with
  | nil => rfl
  | cons p ps =>
    cases ps with
    | nil => rfl
    | cons q qs =>
      cases qs with
      | nil =>
        rw [hp] at hs
        exact absurd rfl hs
      | cons r rs => rfl

/-- Witness for C8: a document with no "SUMMARY:" marker, and one with
two markers. -/
theorem c8_no_split_only_full_w :
    save_to_file okWriter "just notes".toList "v".toList
      = ([("v".toList ++ "_full.txt".toList, "just notes".toList)], false) ∧
    save_to_file okWriter "a SUMMARY: b SUMMARY: c".toList "v".toList
      = ([("v".toList ++ "_full.txt".toList, "a SUMMARY: b SUMMARY: c".toList)], false) :=
  ⟨c8_no_split_only_full okWriter "just notes".toList "v".toList
      (fun _ _ => rfl) (by decide),
    c8_no_split_only_full okWriter "a SUMMARY: b SUMMARY: c".toList "v".toList
      (fun _ _ => rfl) (by decide)⟩

/- ------------------------------------------------------------------
   Splitting/replacement lemmas for the reconstruction claim (C4).
   ------------------------------------------------------------------ -/

/-- The split never produces an empty part list. -/
theorem pySplitF_ne_nil (a : Char) (tl : Str) : ∀ (n : Nat) (s : Str), pySplitF a tl n s ≠ []
  | n, [] => by cases n <;> simp [pySplitF]
  | 0, c :: rest => by simp [pySplitF]
  | n + 1, c :: rest => by
    unfold pySplitF
    split
    · simp
    · cases h : pySplitF a tl n rest with
      | nil => simp
      | cons p ps => simp

/-- The fuel does not matter once it covers the string length. -/
theorem pySplitF_fuel (a : Char) (tl : Str) :
    ∀ (n : Nat) (s : Str) (m : Nat), s.length ≤ n → s.length ≤ m →
      pySplitF a tl n s = pySplitF a tl m s := by
  intro n
  induction n with
  | zero =>
    intro s m h1 _
    cases s with
    | nil => cases m <;> rfl
    | cons c rest => simp at h1
  | succ n ih =>
    intro s m h1 h2
    cases s with
    | nil => cases m <;> rfl
    | cons c rest =>
      cases m with
      | zero => simp at h2
      | succ m' =>
        simp only [List.length_cons] at h1 h2
        simp only [pySplitF]
        split
        · have := ih (rest.drop tl.length) m'
            (by rw [List.length_drop]; omega) (by rw [List.length_drop]; omega)
          rw [this]
        · rw [ih rest m' (by omega) (by omega)]

/-- When the first separator occurrence is exactly after `p`, the split
peels off `p` and continues after the separator. -/
theorem pySplit_append_sep (a : Char) (tl : Str) :
    ∀ (p r : Str),
      (∀ i < p.length, (a :: tl).isPrefixOf ((p ++ (a :: tl) ++ r).drop i) = false) →
      pySplit a tl (p ++ (a :: tl) ++ r) = p :: pySplit a tl r := by
  intro p
  induction p with
  | nil =>
    intro r _
    rw [List.nil_append, List.cons_append]
    show pySplitF a tl (a :: (tl ++ r)).length (a :: (tl ++ r)) = [] :: pySplit a tl r
    have hpre : (a :: tl).isPrefixOf (a :: (tl ++ r)) = true := by
      rw [← List.cons_append]
      exact isPrefixOf_append_self _ _
    simp only [List.length_cons, pySplitF, hpre, if_true]
    rw [List.drop_left]
    have := pySplitF_fuel a tl (tl ++ r).length r r.length
      (by rw [List.length_append]; omega) (le_refl _)
    rw [this]
    rfl
  | cons c p' ih =>
    intro r h
    have h0 : (a :: tl).isPrefixOf (c :: (p' ++ (a :: tl) ++ r)) = false := by
      have := h 0 (by simp)
      simpa using this
    rw [show (c :: p') ++ (a :: tl) ++ r = c :: (p' ++ (a :: tl) ++ r) from by simp]
    show pySplitF a tl (c :: (p' ++ (a :: tl) ++ r)).length _ = _
    simp only [List.length_cons, pySplitF, h0, Bool.false_eq_true, if_false]
    have hrec : pySplitF a tl (p' ++ (a :: tl) ++ r).length (p' ++ (a :: tl) ++ r)
        = p' :: pySplit a tl r := by
      have h' : ∀ i < p'.length,
          (a :: tl).isPrefixOf ((p' ++ (a :: tl) ++ r).drop i) = false := by
        intro i hi
        have := h (i + 1) (by simp; omega)
        simpa [List.drop_succ_cons] using this
      exact ih r h'
    rw [hrec]

/-- A string containing no separator occurrence splits into itself. -/
theorem pySplit_no_occ (a : Char) (tl : Str) :
    ∀ s : Str, (∀ i, (a :: tl).isPrefixOf (s.drop i) = false) → pySplit a tl s = [s] := by
  intro s
  induction s with
  | nil => intro _; rfl
  | cons c rest ih =>
    intro h
    have h0 : (a :: tl).isPrefixOf (c :: rest) = false := by
      have := h 0
      simpa using this
    show pySplitF a tl (c :: rest).length (c :: rest) = [c :: rest]
    simp only [List.length_cons, pySplitF, h0, Bool.false_eq_true, if_false]
    have hrec : pySplitF a tl rest.length rest = [rest] :=
      ih (fun i => by have := h (i + 1); simpa [List.drop_succ_cons] using this)
    rw [hrec]

/-- Replacing the separator by the empty string is exactly flattening the
split: both scan left to right over the same occurrences. -/
theorem pyReplaceF_empty_flatten (a : Char) (tl : Str) :
    ∀ (n : Nat) (s : Str), s.length ≤ n →
      pyReplaceF a tl [] n s = (pySplitF a tl n s).flatten := by
  intro n
  induction n with
  | zero =>
    intro s h
    cases s with
    | nil => rfl
    | cons c rest => simp at h
  | succ n ih =>
    intro s h
    cases s with
    | nil => rfl
    | cons c rest =>
      simp only [List.length_cons] at h
      simp only [pyReplaceF, pySplitF]
      split
      · rw [List.flatten_cons, List.nil_append]
        exact ih _ (by rw [List.length_drop]; omega)
      · cases hx : pySplitF a tl n rest with
        | nil => exact absurd hx (pySplitF_ne_nil a tl n rest)
        | cons p ps =>
          have ihr := ih rest (by omega)
          rw [hx] at ihr
          rw [List.flatten_cons] at ihr ⊢
          simp [ihr]

/-- `s.replace(sep, "")` equals the concatenation of `s.split(sep)`. -/
theorem pyReplace_empty_flatten (a : Char) (tl s : Str) :
    pyReplace a tl [] s = (pySplit a tl s).flatten :=
  pyReplaceF_empty_flatten a tl s.length s (le_refl _)

/- ------------------------------------------------------------------
   Whitespace lemmas for the reconstruction claim (C4).
   ------------------------------------------------------------------ -/

theorem filterNW_dropWhile (s : Str) : filterNW (s.dropWhile isPySpace) = filterNW s := by
  induction s with
  | nil => rfl
  | cons c rest ih =>
    cases h : isPySpace c with
    | true =>
      rw [List.dropWhile_cons, if_pos h,
        show filterNW (c :: rest) = filterNW rest from by
          simp [filterNW, List.filter_cons, h]]
      exact ih
    | false => simp [List.dropWhile_cons, filterNW, List.filter_cons, h]

theorem filterNW_reverse (s : Str) : filterNW s.reverse = (filterNW s).reverse :=
  List.filter_reverse _ s

/-- Stripping whitespace at the ends does not change the whitespace-free
residue. -/
theorem filterNW_pyStrip (s : Str) : filterNW (pyStrip s) = filterNW s := by
  unfold pyStrip
  rw [filterNW_reverse, filterNW_dropWhile, filterNW_reverse, filterNW_dropWhile,
    List.reverse_reverse]

theorem filterNW_append (x y : Str) : filterNW (x ++ y) = filterNW x ++ filterNW y :=
  List.filter_append _ _

/-- The shape of a well-formed generator output: a leading "NOTES:"
label, notes body `A`, the single "SUMMARY:" marker, summary body `B`. -/
def contentOf (A B : Str) : Str := lblNotes ++ A ++ lblSummary ++ B

/-- C4 (amended): for generator output of the form
`"NOTES:" ++ A ++ "SUMMARY:" ++ B` whose only "SUMMARY:" occurrence is
the marker and whose only "NOTES:" occurrence is the leading label, the
writer produces the full, notes and summary files with contents
`content`, `strip A`, `strip B`; and the concatenation of the notes and
summary files — not of all three files — reconstructs the original text
up to removing the label strings and all whitespace. -/
theorem c4_reconstruction (A B filename : Str) (w : Str → Str → Except Unit Unit)
    (hw : ∀ f c, w f c = .ok ())
    (hS : ∀ i ≤ (contentOf A B).length,
      lblSummary.isPrefixOf ((contentOf A B).drop i) = true →
        i = lblNotes.length + A.length)
    (hN : ∀ i ≤ (contentOf A B).length,
      lblNotes.isPrefixOf ((contentOf A B).drop i) = true → i = 0) :
    save_to_file w (contentOf A B) filename =
      ([(filename ++ "_full.txt".toList, contentOf A B),
        (filename ++ "_notes.txt".toList, pyStrip A),
        (filename ++ "_summary.txt".toList, pyStrip B)], false) ∧
    filterNW (pyStrip A ++ pyStrip B)
      = filterNW (pyReplace 'S' tlSummary [] (pyReplace 'N' tlNotes [] (contentOf A B))) := by
  have h6 : lblNotes.length = 6 := by decide
  have h8 : lblSummary.length = 8 := by decide
  have hS' : ∀ i, lblSummary.isPrefixOf ((contentOf A B).drop i) = true →
      i = lblNotes.length + A.length := by
    intro i hocc
    by_cases hi : i ≤ (contentOf A B).length
    · exact hS i hi hocc
    · rw [isPrefixOf_drop_past lblSummary (contentOf A B) i (by decide) (by omega)] at hocc
      exact absurd hocc Bool.false_ne_true
  have hN' : ∀ i, lblNotes.isPrefixOf ((contentOf A B).drop i) = true → i = 0 := by
    intro i hocc
    by_cases hi : i ≤ (contentOf A B).length
    · exact hN i hi hocc
    · rw [isPrefixOf_drop_past lblNotes (contentOf A B) i (by decide) (by omega)] at hocc
      exact absurd hocc Bool.false_ne_true
  have hBno : ∀ j, ('S' :: tlSummary).isPrefixOf (B.drop j) = false := by
    intro j
    cases hocc : ('S' :: tlSummary).isPrefixOf (B.drop j) with
    | false => rfl
    | true =>
      exfalso
      have hconv : (contentOf A B).drop ((lblNotes ++ A ++ lblSummary).length + j)
          = B.drop j := by
        rw [show contentOf A B = (lblNotes ++ A ++ lblSummary) ++ B from by
            simp [contentOf, List.append_assoc]]
        exact drop_append_add _ _ _
      have heq := hS' ((lblNotes ++ A ++ lblSummary).length + j) (by rw [hconv]; exact hocc)
      rw [List.length_append, List.length_append] at heq
      omega
  have hAnoN : ∀ j, ('N' :: tlNotes).isPrefixOf (A.drop j) = false := by
    intro j
    cases hocc : ('N' :: tlNotes).isPrefixOf (A.drop j) with
    | false => rfl
    | true =>
      exfalso
      by_cases hj : j ≤ A.length
      · have hconv : (contentOf A B).drop (lblNotes.length + j)
            = A.drop j ++ (lblSummary ++ B) := by
          rw [show contentOf A B = lblNotes ++ (A ++ (lblSummary ++ B)) from by
              simp [contentOf, List.append_assoc],
            drop_append_add, List.drop_append_of_le_length hj]
        have hocc' : lblNotes.isPrefixOf ((contentOf A B).drop (lblNotes.length + j))
            = true := by
          rw [hconv]
          exact isPrefixOf_append_mono _ _ _ hocc
        have := hN' (lblNotes.length + j) hocc'
        omega
      · rw [isPrefixOf_drop_past ('N' :: tlNotes) A j (by simp) (by omega)] at hocc
        exact absurd hocc Bool.false_ne_true
  have hQnoN : ∀ j, ('N' :: tlNotes).isPrefixOf ((A ++ lblSummary ++ B).drop j) = false := by
    intro j
    cases hocc : ('N' :: tlNotes).isPrefixOf ((A ++ lblSummary ++ B).drop j) with
    | false => rfl
    | true =>
      exfalso
      have hconv : (contentOf A B).drop (lblNotes.length + j)
          = (A ++ lblSummary ++ B).drop j := by
        rw [show contentOf A B = lblNotes ++ (A ++ lblSummary ++ B) from by
            simp [contentOf, List.append_assoc], drop_append_add]
      have := hN' (lblNotes.length + j) (by rw [hconv]; exact hocc)
      omega
  have hsplit : pySplit 'S' tlSummary (contentOf A B) = [lblNotes ++ A, B] := by
    have hshape : contentOf A B = (lblNotes ++ A) ++ ('S' :: tlSummary) ++ B := by
      simp [contentOf, lblSummary, List.append_assoc]
    have hpos : ∀ i < (lblNotes ++ A).length,
        ('S' :: tlSummary).isPrefixOf
          ((((lblNotes ++ A) ++ ('S' :: tlSummary) ++ B)).drop i) = false := by
      intro i hi
      cases hocc : ('S' :: tlSummary).isPrefixOf
          ((((lblNotes ++ A) ++ ('S' :: tlSummary) ++ B)).drop i) with
      | false => rfl
      | true =>
        exfalso
        have heq := hS' i (by rw [hshape]; exact hocc)
        rw [List.length_append] at hi
        omega
    rw [hshape, pySplit_append_sep 'S' tlSummary (lblNotes ++ A) B hpos,
      pySplit_no_occ 'S' tlSummary B hBno]
  have hnotes : pyReplace 'N' tlNotes [] (lblNotes ++ A) = A := by
    have hsh : lblNotes ++ A = [] ++ ('N' :: tlNotes) ++ A := by simp [lblNotes]
    rw [pyReplace_empty_flatten, hsh,
      pySplit_append_sep 'N' tlNotes [] A (by intro i hi; simp at hi),
      pySplit_no_occ 'N' tlNotes A hAnoN]
    simp
  have hrepN : pyReplace 'N' tlNotes [] (contentOf A B) = A ++ lblSummary ++ B := by
    have hsh : contentOf A B = [] ++ ('N' :: tlNotes) ++ (A ++ lblSummary ++ B) := by
      simp [contentOf, lblNotes, List.append_assoc]
    rw [pyReplace_empty_flatten, hsh,
      pySplit_append_sep 'N' tlNotes [] (A ++ lblSummary ++ B) (by intro i hi; simp at hi),
      pySplit_no_occ 'N' tlNotes (A ++ lblSummary ++ B) hQnoN]
    simp
  have hrepS : pyReplace 'S' tlSummary [] (A ++ lblSummary ++ B) = A ++ B := by
    have hposA : ∀ i < A.length,
        ('S' :: tlSummary).isPrefixOf ((A ++ ('S' :: tlSummary) ++ B).drop i) = false := by
      intro i hi
      cases hocc : ('S' :: tlSummary).isPrefixOf ((A ++ ('S' :: tlSummary) ++ B).drop i) with
      | false => rfl
      | true =>
        exfalso
        have hconv : (contentOf A B).drop (lblNotes.length + i)
            = (A ++ ('S' :: tlSummary) ++ B).drop i := by
          rw [show contentOf A B = lblNotes ++ (A ++ ('S' :: tlSummary) ++ B) from by
              simp [contentOf, lblSummary, List.append_assoc], drop_append_add]
        have := hS' (lblNotes.length + i) (by rw [hconv]; exact hocc)
        omega
    rw [pyReplace_empty_flatten,
      show A ++ lblSummary ++ B = A ++ ('S' :: tlSummary) ++ B from rfl,
      pySplit_append_sep 'S' tlSummary A B hposA,
      pySplit_no_occ 'S' tlSummary B hBno]
    simp
  constructor
  · unfold save_to_file
    simp only [hw, hsplit, hnotes]
  · rw [hrepN, hrepS, filterNW_append, filterNW_pyStrip, filterNW_pyStrip, ← filterNW_append]

/-- Witness for C4 (amended) at a concrete well-formed document. -/
theorem c4_reconstruction_w :
    save_to_file okWriter (contentOf " alpha ".toList " beta".toList) "v".toList =
      ([("v".toList ++ "_full.txt".toList, contentOf " alpha ".toList " beta".toList),
        ("v".toList ++ "_notes.txt".toList, pyStrip " alpha ".toList),
        ("v".toList ++ "_summary.txt".toList, pyStrip " beta".toList)], false) ∧
    filterNW (pyStrip " alpha ".toList ++ pyStrip " beta".toList)
      = filterNW (pyReplace 'S' tlSummary []
          (pyReplace 'N' tlNotes [] (contentOf " alpha ".toList " beta".toList))) :=
  c4_reconstruction " alpha ".toList " beta".toList "v".toList okWriter
    (fun _ _ => rfl) (by decide) (by decide)

/-- Counterexample to C4 as stated: concatenating the contents of all
three files (full, notes, summary) duplicates the document body, so even
ignoring the label strings and whitespace it does not reconstruct the
original text. -/
theorem c4_reconstruction_cex :
    filterNW (pyReplace 'S' tlSummary [] (pyReplace 'N' tlNotes []
        (((save_to_file okWriter "NOTES: alpha SUMMARY: beta".toList "v".toList).1.map
            Prod.snd).flatten)))
      ≠ filterNW (pyReplace 'S' tlSummary [] (pyReplace 'N' tlNotes []
          "NOTES: alpha SUMMARY: beta".toList)) := by
  decide

end YTSum
